import Mathlib

/-
Verification of the newtab-content-extension repository: a shallow embedding
of the section-bridge API (the ExtensionAPI subclass registering a new-tab
section with the ActivityStream SectionsManager) and of the sample
background card poller, together with theorems settling the specified
properties of both components.
-/

set_option autoImplicit false

/-! ## A model of plain JavaScript values and objects

The bridge manipulates manifest option records as plain JS objects.
JsVal distinguishes null from undefined because the constructor treats
them differently. A JsObj is an ordered association list with unique
keys, the order being JS property insertion order.
-/

/-- A plain JavaScript value, as far as the bridge inspects one. -/
inductive JsVal where
  | null : JsVal
  | undef : JsVal
  | str : String → JsVal
  | num : Int → JsVal
  | arr : List JsVal → JsVal
  | obj : List (String × JsVal) → JsVal

/-- A plain JavaScript object: ordered fields with unique keys. -/
def JsObj : Type := List (String × JsVal)

/-- Property read: first field with a matching key, none when absent. -/
def getProp : JsObj → String → Option JsVal
  | [], _ => none
  | (k2, v) :: o, k => if k2 == k then some v else getProp o k

/-- Property write, as JS assignment: replace the existing field in
place, keeping its position, or append a fresh field at the end. -/
def setProp : JsObj → String → JsVal → JsObj
  | [], k, v => [(k, v)]
  | (k2, v2) :: o, k, v =>
      if k2 == k then (k, v) :: o else (k2, v2) :: setProp o k v

/-- The effect of Object.assign of a source object onto a target:
every own enumerable field of the source is assigned onto the target,
in order, including fields whose value is undefined. -/
def objectAssign (target src : JsObj) : JsObj :=
  src.foldl (fun acc kv => setProp acc kv.1 kv.2) target

/-- The constructor pass at part_000 lines 24-28: every field whose
value is strictly null is reassigned to undefined. The field itself is
not deleted. -/
def nullToUndef (o : JsObj) : JsObj :=
  o.map (fun p =>
    match p.2 with
    | JsVal.null => (p.1, JsVal.undef)
    | _ => p)

theorem getProp_setProp_self (o : JsObj) (k : String) (v : JsVal) :
    getProp (setProp o k v) k = some v := by
  induction o with
  | nil => simp [getProp, setProp]
  | cons p o ih =>
    by_cases h : p.1 = k
    · simp [getProp, setProp, h]
    · simp [getProp, setProp, h, ih]

theorem getProp_setProp_ne (o : JsObj) (k k2 : String) (v : JsVal)
    (h : k2 ≠ k) : getProp (setProp o k v) k2 = getProp o k2 := by
  have h2 : k ≠ k2 := Ne.symm h
  induction o with
  | nil => simp [getProp, setProp, h2]
  | cons p o ih =>
    by_cases hpk : p.1 = k
    · simp [getProp, setProp, hpk, h2]
    · by_cases hpk2 : p.1 = k2
      · simp [getProp, setProp, hpk, hpk2, h]
      · simp [getProp, setProp, hpk, hpk2, ih]

theorem objectAssign_single (o : JsObj) (k : String) (v : JsVal) :
    objectAssign o [(k, v)] = setProp o k v := rfl

/-! ## The section bridge: constructing SectionOptions

Embeds the API constructor of part_000 lines 18-48: copy the manifest
override object, turn null fields into undefined fields, Object.assign
the result onto the default record, then resolve a non-extension-local
icon through the extension URI resolver.
-/

/-- The default SectionOptions record built in the constructor, for a
given extension id (part_000 lines 30-43). -/
def defaultOptions (extensionId : String) : JsObj :=
  [("title", JsVal.str extensionId),
   ("maxRows", JsVal.num 1),
   ("contextMenuOptions", JsVal.arr
      [JsVal.str "OpenInNewWindow",
       JsVal.str "OpenInPrivateWindow",
       JsVal.str "Separator",
       JsVal.str "BlockUrl"]),
   ("emptyState", JsVal.obj
      [("message", JsVal.obj [("defaultMessage", JsVal.str "Loading")]),
       ("icon", JsVal.str "check")])]

/-- The icon-resolution step (part_000 lines 45-47): when the icon
field holds a truthy string that does not start with the extension URI
scheme, it is replaced by the resolved URI. A nullish or empty icon is
left alone because the guard is falsy. Non-string truthy icon values
would throw in the source and are outside the manifest schema, so the
model leaves them unchanged. -/
def resolveIcon (getURL : String → String) (o : JsObj) : JsObj :=
  match getProp o "icon" with
  | some (JsVal.str s) =>
      if s ≠ "" ∧ ¬ s.startsWith "moz-extension://"
      then setProp o "icon" (JsVal.str (getURL s))
      else o
  | _ => o

/-- The whole constructor merge (part_000 lines 21-47). -/
def buildSectionOptions (extensionId : String) (getURL : String → String)
    (manifestOptions : JsObj) : JsObj :=
  resolveIcon getURL
    (objectAssign (defaultOptions extensionId) (nullToUndef manifestOptions))

/-! ## The section bridge: setters (part_000 lines 66-89)

Each setter assigns one property of the shared options object. Note the
source of setIcon assigns the property named icons, not icon
(part_000 line 72). -/

def setTitle (o : JsObj) (v : JsVal) : JsObj := setProp o "title" v

def setIcon (o : JsObj) (v : JsVal) : JsObj := setProp o "icons" v

def setMaxRows (o : JsObj) (v : JsVal) : JsObj := setProp o "maxRows" v

def setEmptyState (o : JsObj) (v : JsVal) : JsObj := setProp o "emptyState" v

def setInfoOption (o : JsObj) (v : JsVal) : JsObj := setProp o "infoOption" v

/-- Claim C1: the claim states that a null-valued manifest key falls
back to the default and that no field the default supplies is left
undefined. The code converts null to undefined but Object.assign still
copies undefined-valued fields, so a manifest of title null yields an
options record whose title is undefined rather than the default
extension id: the merge clobbers the default. -/
theorem c1_null_manifest_clobbers_default :
    getProp (buildSectionOptions "ext@test" (fun s => s)
      [("title", JsVal.null)]) "title" = some JsVal.undef
    ∧ getProp (defaultOptions "ext@test") "title"
        = some (JsVal.str "ext@test")
    ∧ getProp (buildSectionOptions "ext@test" (fun s => s)
        [("maxRows", JsVal.num 3)]) "maxRows" = some (JsVal.num 3) := by
  exact ⟨rfl, rfl, rfl⟩

/-- Claim C2: the claim states each setter mutates its corresponding
field; setTitle, setMaxRows, setEmptyState and setInfoOption do, but
setIcon assigns the unrelated property icons (source line 72), leaving
the icon field of the options record untouched for every options
object and every value. -/
theorem c2_setIcon_leaves_icon_unchanged :
    (∀ (o : JsObj) (v : JsVal),
        getProp ( setIcon o v) "icon" = getProp o "icon"
        ∧ getProp ( setIcon o v) "icons" = some v)
    ∧ getProp ( setIcon (defaultOptions "ext@test")
        (JsVal.str "moz-extension://x/a.png")) "icon" = none
    ∧ (∀ (o : JsObj) (v : JsVal), getProp (setTitle o v) "title" = some v)
    ∧ (∀ (o : JsObj) (v : JsVal), getProp (setMaxRows o v) "maxRows" = some v)
    ∧ (∀ (o : JsObj) (v : JsVal), getProp (setEmptyState o v) "emptyState" = some v)
    ∧ (∀ (o : JsObj) (v : JsVal), getProp (setInfoOption o v) "infoOption" = some v) := by
  refine ⟨fun o v => ⟨?_, ?_⟩, rfl, fun o v => ?_, fun o v => ?_,
    fun o v => ?_, fun o v => ?_⟩
  · exact getProp_setProp_ne o "icons" "icon" v (by decide)
  · exact getProp_setProp_self o "icons" v
  · exact getProp_setProp_self o "title" v
  · exact getProp_setProp_self o "maxRows" v
  · exact getProp_setProp_self o "emptyState" v
  · exact getProp_setProp_self o "infoOption" v

/-! ## The host registry

SectionsManager is an external ActivityStream collaborator (imported at
part_000 line 7). Its surface, as the spec section 6 describes and the
bridge consumes it: an initialization flag, a map of registered
sections with an enabled flag and stored options, an updateSection
operation merging a partial options record into a stored section, and
a lifecycle event stream. The bridge reads it only through this
surface.
-/

/-- A registered section inside the host registry: its visibility flag
and its stored options record. -/
structure RegSection where
  enabled : Bool
  options : JsObj

/-- The host registry state the bridge observes. -/
structure Registry where
  isInit : Bool
  sections : List (String × RegSection)

/-- SectionsManager.sections.has. -/
def regHas (reg : Registry) (id : String) : Bool :=
  reg.sections.any (fun p => p.1 == id)

/-- Look up a registered section by id. -/
def regFind (reg : Registry) (id : String) : Option RegSection :=
  (reg.sections.find? (fun p => p.1 == id)).map (fun p => p.2)

/-- SectionsManager.sections.get(id).enabled, false when absent. -/
def sectionEnabled (reg : Registry) (id : String) : Bool :=
  match regFind reg id with
  | some s => s.enabled
  | none => false

/-- One stored option of a registered section, none when the section or
the field is absent. -/
def regOptProp (reg : Registry) (id k : String) : Option JsVal :=
  match regFind reg id with
  | some s => getProp s.options k
  | none => none

/-- The registry state after SectionsManager.updateSection merges a
partial options record into the section stored under the given id. -/
def regUpdateSection (reg : Registry) (id : String) (part : JsObj) : Registry :=
  { reg with sections := reg.sections.map (fun p =>
      if p.1 == id
      then (p.1, RegSection.mk p.2.enabled (objectAssign p.2.options part))
      else p) }

/-- A call the bridge issues into the host registry. -/
inductive RegistryCall where
  | updateSection (id : String) (part : JsObj) (broadcast : Bool)

/-- The events the host registry emits (spec section 6). -/
inductive RegEvent where
  | INIT : RegEvent
  | UNINIT : RegEvent
  | ENABLE_SECTION : String → RegEvent
  | DISABLE_SECTION : String → RegEvent
  | ACTION_DISPATCHED : String → RegEvent

theorem find_update_list (id j : String) (part : JsObj) :
    ∀ l : List (String × RegSection),
    List.find? (fun p => p.1 == j)
        (l.map (fun p =>
          if p.1 == id
          then (p.1, RegSection.mk p.2.enabled (objectAssign p.2.options part))
          else p)) =
      if j = id
      then (List.find? (fun p => p.1 == j) l).map
        (fun p => (p.1, RegSection.mk p.2.enabled (objectAssign p.2.options part)))
      else List.find? (fun p => p.1 == j) l := by
  intro l
  induction l with
  | nil => by_cases h : j = id <;> simp [h]
  | cons p l ih =>
    by_cases hpi : p.1 = id
    · have hmap : (if p.1 == id
          then (p.1, RegSection.mk p.2.enabled (objectAssign p.2.options part))
          else p)
          = (p.1, RegSection.mk p.2.enabled (objectAssign p.2.options part)) := by
        simp [hpi]
      by_cases hpj : p.1 = j
      · have hji : j = id := by rw [← hpj, hpi]
        simp only [List.map_cons, hmap]
        rw [List.find?_cons_of_pos _ (by simp [hpj]), if_pos hji,
          List.find?_cons_of_pos _ (by simp [hpj])]
        simp
      · have hji : ¬ j = id := fun h => hpj (hpi.trans h.symm)
        simp only [List.map_cons, hmap]
        rw [List.find?_cons_of_neg _ (by simp [hpj]), ih, if_neg hji,
          if_neg hji, List.find?_cons_of_neg _ (by simp [hpj])]
    · have hmap : (if p.1 == id
          then (p.1, RegSection.mk p.2.enabled (objectAssign p.2.options part))
          else p) = p := by
        simp [hpi]
      by_cases hpj : p.1 = j
      · have hji : ¬ j = id := fun h => hpi (hpj.trans h)
        simp only [List.map_cons, hmap]
        rw [List.find?_cons_of_pos _ (by simp [hpj]), if_neg hji,
          List.find?_cons_of_pos _ (by simp [hpj])]
      · simp only [List.map_cons, hmap]
        rw [List.find?_cons_of_neg _ (by simp [hpj]), ih]
        by_cases hji : j = id
        · rw [if_pos hji, if_pos hji,
            List.find?_cons_of_neg _ (by simp [hpj])]
        · rw [if_neg hji, if_neg hji,
            List.find?_cons_of_neg _ (by simp [hpj])]

theorem regFind_regUpdateSection (reg : Registry) (id : String)
    (part : JsObj) (j : String) :
    regFind (regUpdateSection reg id part) j =
      if j = id
      then (regFind reg j).map
        (fun s => RegSection.mk s.enabled (objectAssign s.options part))
      else regFind reg j := by
  unfold regFind regUpdateSection
  rw [find_update_list id j part reg.sections]
  by_cases hji : j = id
  · simp only [if_pos hji]
    cases List.find? (fun p => p.1 == j) reg.sections <;> simp
  · simp only [if_neg hji]

/-! ## The section bridge: addCards and the dynamic options update

addCards (part_000 lines 109-113) guards on registration and updates
only the rows field. The updateSection closure (part_000 lines 58-59)
is the thunk queued by every setter through
SectionsManager.onceInitialized; it guards on registration and sends
the complete current options record with broadcast true.
-/

/-- The bridge addCards operation: resulting registry state paired with
the trace of registry calls issued. -/
def addCards (reg : Registry) (id : String) (cards : JsVal)
    (shouldBroadcast : Bool) : Registry × List RegistryCall :=
  if regHas reg id
  then (regUpdateSection reg id [("rows", cards)],
        [RegistryCall.updateSection id [("rows", cards)] shouldBroadcast])
  else (reg, [])

/-- The updateSection arrow function of part_000 lines 58-59, run when
the registry reports initialized: resulting registry state paired with
the trace of registry calls issued. -/
def updateSectionThunk (reg : Registry) (id : String) (options : JsObj) :
    Registry × List RegistryCall :=
  if regHas reg id
  then (regUpdateSection reg id options,
        [RegistryCall.updateSection id options true])
  else (reg, [])

/-- Claim C6: addCards with the section registered issues exactly one
registry update carrying only the rows field and the given broadcast
flag, sets the stored rows to the given cards, and changes no other
stored option of any section nor any enabled flag; with the section
not registered it is a silent no-op leaving the registry untouched and
issuing no call. -/
theorem c6_addCards_rows_only (reg : Registry) (id : String)
    (cards : JsVal) (b : Bool) :
    (regHas reg id = false → addCards reg id cards b = (reg, [])) ∧
    (regHas reg id = true →
      (addCards reg id cards b).2
        = [RegistryCall.updateSection id [("rows", cards)] b]
      ∧ regOptProp (addCards reg id cards b).1 id "rows" = some cards) ∧
    (∀ k, k ≠ "rows" → ∀ j,
      regOptProp (addCards reg id cards b).1 j k = regOptProp reg j k) ∧
    (∀ j, sectionEnabled (addCards reg id cards b).1 j
      = sectionEnabled reg j) := by
  by_cases h : regHas reg id
  · refine ⟨?_, ?_, ?_, ?_⟩
    · intro hf
      simp [h] at hf
    · intro _
      refine ⟨?_, ?_⟩
      · simp [addCards, h]
      · simp only [addCards, h, if_pos, regOptProp]
        rw [regFind_regUpdateSection, if_pos rfl]
        cases hf : regFind reg id with
        | none =>
          exfalso
          unfold regHas at h
          unfold regFind at hf
          rw [List.any_eq_true] at h
          obtain ⟨p, hp, hpe⟩ := h
          rw [Option.map_eq_none', List.find?_eq_none] at hf
          exact absurd hpe (by simpa using hf p hp)
        | some s =>
          simp [objectAssign_single, getProp_setProp_self]
    · intro k hk j
      simp only [addCards, h, if_pos, regOptProp]
      rw [regFind_regUpdateSection]
      by_cases hji : j = id
      · rw [if_pos hji]
        cases regFind reg j with
        | none => simp
        | some s => simp [objectAssign_single, getProp_setProp_ne _ _ _ _ hk]
      · rw [if_neg hji]
    · intro j
      simp only [addCards, h, if_pos, sectionEnabled]
      rw [regFind_regUpdateSection]
      by_cases hji : j = id
      · rw [if_pos hji]
        cases regFind reg j with
        | none => simp
        | some s => simp
      · rw [if_neg hji]
  · have hf : regHas reg id = false := by simpa using h
    refine ⟨?_, ?_, ?_, ?_⟩
    · intro _
      simp [addCards, hf]
    · intro ht
      simp [hf] at ht
    · intro k hk j
      simp [addCards, hf]
    · intro j
      simp [addCards, hf]

/-- A concrete registry with one registered, enabled section, used to
instantiate the bridge theorems. -/
def regW : Registry :=
  Registry.mk true [("ext@test", RegSection.mk true (defaultOptions "ext@test"))]

/-- Witness for claim C6, at the concrete registry regW: the registered
branch for the section ext@test and the unregistered branch for the
absent id other. -/
theorem c6_addCards_rows_only_witness :
    (addCards regW "other" (JsVal.str "cs") true = (regW, [])) ∧
    ((addCards regW "ext@test" (JsVal.str "cs") true).2
      = [RegistryCall.updateSection "ext@test"
          [("rows", JsVal.str "cs")] true]) ∧
    (regOptProp (addCards regW "ext@test" (JsVal.str "cs") true).1
      "ext@test" "rows" = some (JsVal.str "cs")) ∧
    (regOptProp (addCards regW "ext@test" (JsVal.str "cs") true).1
      "ext@test" "title" = regOptProp regW "ext@test" "title") ∧
    (sectionEnabled (addCards regW "ext@test" (JsVal.str "cs") true).1
      "ext@test" = sectionEnabled regW "ext@test") := by
  refine ⟨(c6_addCards_rows_only regW "other" (JsVal.str "cs") true).1 rfl,
    ((c6_addCards_rows_only regW "ext@test" (JsVal.str "cs") true).2.1 rfl).1,
    ((c6_addCards_rows_only regW "ext@test" (JsVal.str "cs") true).2.1 rfl).2,
    (c6_addCards_rows_only regW "ext@test" (JsVal.str "cs") true).2.2.1
      "title" (by decide) "ext@test",
    (c6_addCards_rows_only regW "ext@test" (JsVal.str "cs") true).2.2.2
      "ext@test"⟩

/-- Claim C9: the thunk queued by every setter, once the registry is
initialized, is a no-op issuing no registry call when the section is
not registered, and otherwise issues exactly one update carrying the
complete current options record with broadcast true. -/
theorem c9_updateSectionThunk (reg : Registry) (id : String)
    (options : JsObj) (_hinit : reg.isInit = true) :
    (regHas reg id = false → updateSectionThunk reg id options = (reg, [])) ∧
    (regHas reg id = true →
      (updateSectionThunk reg id options).2
        = [RegistryCall.updateSection id options true]) := by
  constructor
  · intro hf
    simp [updateSectionThunk, hf]
  · intro ht
    simp [updateSectionThunk, ht]

/-- Witness for claim C9 at the concrete registry regW. -/
theorem c9_updateSectionThunk_witness :
    (updateSectionThunk regW "other" (defaultOptions "ext@test") = (regW, [])) ∧
    ((updateSectionThunk regW "ext@test" (defaultOptions "ext@test")).2
      = [RegistryCall.updateSection "ext@test" (defaultOptions "ext@test") true]) :=
  ⟨(c9_updateSectionThunk regW "other" (defaultOptions "ext@test") rfl).1 rfl,
   (c9_updateSectionThunk regW "ext@test" (defaultOptions "ext@test") rfl).2 rfl⟩

/-! ## The section bridge: the onInitialized event

part_000 lines 116-137. The subscription installs two listeners: an
initListener reacting to the INIT registry event, firing only while
the section is registered and enabled, and an enabledListener reacting
to ENABLE_SECTION, firing only for this section id. When the registry
is already initialized at subscription time the initListener is run
once immediately.
-/

/-- How many times the immediate catch-up at subscription time fires,
given the registry state at that moment (part_000 line 128). -/
def onInitializedImmediateFires (reg : Registry) (id : String) : Nat :=
  if reg.isInit then (if sectionEnabled reg id then 1 else 0) else 0

/-- How many times the pair of installed listeners fires on one
registry event, given the registry state when the event is delivered
(part_000 lines 119-124 and 130-131). -/
def onInitializedEventFires (reg : Registry) (id : String) : RegEvent → Nat
  | RegEvent.INIT => if sectionEnabled reg id then 1 else 0
  | RegEvent.ENABLE_SECTION s => if s == id then 1 else 0
  | _ => 0

/-- Claim C7: subscribing while the registry is initialized and the
section registered and enabled fires the listener exactly once,
synchronously; each later enable transition of this section delivers
exactly one firing across both installed listeners, never two, and an
enable transition of a different section delivers none. -/
theorem c7_onInitialized_fires (id : String) :
    (∀ reg : Registry, reg.isInit = true → sectionEnabled reg id = true →
       onInitializedImmediateFires reg id = 1) ∧
    (∀ reg : Registry,
       onInitializedEventFires reg id (RegEvent.ENABLE_SECTION id) = 1) ∧
    (∀ (reg : Registry) (s : String), s ≠ id →
       onInitializedEventFires reg id (RegEvent.ENABLE_SECTION s) = 0) := by
  refine ⟨?_, ?_, ?_⟩
  · intro reg h1 h2
    simp [onInitializedImmediateFires, h1, h2]
  · intro reg
    simp [onInitializedEventFires]
  · intro reg s hs
    simp [onInitializedEventFires, hs]

/-- Witness for claim C7 at the concrete registry regW, whose section
ext@test is registered and enabled while the registry is initialized. -/
theorem c7_onInitialized_fires_witness :
    onInitializedImmediateFires regW "ext@test" = 1
    ∧ onInitializedEventFires regW "ext@test"
        (RegEvent.ENABLE_SECTION "ext@test") = 1
    ∧ onInitializedEventFires regW "ext@test"
        (RegEvent.ENABLE_SECTION "other") = 0 :=
  ⟨(c7_onInitialized_fires "ext@test").1 regW rfl rfl,
   (c7_onInitialized_fires "ext@test").2.1 regW,
   (c7_onInitialized_fires "ext@test").2.2 regW "other" (by decide)⟩

/-! ## The card poller: fetching and parsing cards

Embeds background.js of the nyt-extension. getCards parses the JSON
envelope: the first 20 entries of the results array are mapped to
cards, picking for each the strictly-widest image of width at most
300, starting from a zero-width empty-url best (lines 7-33).
-/

/-- A card as the poller builds it (background.js lines 21-27). -/
structure Card where
  title : String
  url : String
  description : String
  image : String
  hostname : String
deriving DecidableEq

/-- One multimedia entry of a remote result. -/
structure Media where
  type : String
  width : Nat
  url : String
deriving DecidableEq

/-- One entry of the results array of the remote JSON envelope. -/
structure Story where
  abstract : String
  title : String
  url : String
  multimedia : List Media
deriving DecidableEq

/-- The running best image of the forEach loop. -/
structure BestImage where
  width : Nat
  url : String
deriving DecidableEq

/-- The forEach loop of background.js lines 16-20: a media item
replaces the running best exactly when it is an image, strictly wider
than the current best, and no wider than 300. -/
def bestImage : List Media → BestImage → BestImage
  | [], acc => acc
  | m :: ms, acc =>
      bestImage ms
        (if m.type == "image" && decide (acc.width < m.width)
            && decide (m.width ≤ 300)
         then BestImage.mk m.width m.url
         else acc)

/-- The image chosen for one story: the loop starts from width 0 and
the empty url (background.js line 14). -/
def chosenImage (ms : List Media) : String :=
  (bestImage ms (BestImage.mk 0 "")).url

/-- Map one result entry to a card (background.js lines 13-28). -/
def toCard (s : Story) : Card :=
  Card.mk s.title s.url s.abstract (chosenImage s.multimedia) "nytimes"

/-- The card list built from a parsed results array (background.js
line 13): the first 20 entries, mapped. -/
def getCards (results : List Story) : List Card :=
  (results.take 20).map toCard

/-! ## The card poller: cache, update and lifecycle

background.js lines 35-58. The module-level cards and lastUpdated
variables form the cache; update refreshes or republishes on each
tick; init awaits one update and then subscribes update to the tick
stream; uninit unsubscribes it.

The remote fetch is modelled by its outcome. On a network error the
load event never fires, and on malformed JSON the JSON.parse call
throws inside the load listener after the executor has returned; in
both cases the promise returned by getCards never settles, so the
await inside update never resumes and the assignment to cards never
happens. A never-settling fetch is the none outcome, and an update
call awaiting it never completes: it is modelled as returning none.
-/

/-- The single handler the poller ever subscribes to the tick stream:
its update function. -/
inductive TickHandler where
  | update : TickHandler
deriving DecidableEq

/-- The outcome of one remote fetch attempt. -/
inductive FetchOutcome where
  | ok : List Story → FetchOutcome
  | networkError : FetchOutcome
  | malformedJSON : FetchOutcome
deriving DecidableEq

/-- What the promise of getCards delivers for an outcome: the parsed
cards, or nothing ever (the promise stays pending). -/
def fetchCards : FetchOutcome → Option (List Card)
  | FetchOutcome.ok results => some (getCards results)
  | FetchOutcome.networkError => none
  | FetchOutcome.malformedJSON => none

/-- background.js line 5: 15 minutes in milliseconds. -/
def UPDATE_INTERVAL : Int := 15 * 60 * 1000

/-- The poller state: the two module-level cache variables and the set
of handlers subscribed to the tick stream. -/
structure PollerState where
  cards : Option (List Card)
  lastUpdated : Option Int
  tickListeners : List TickHandler
deriving DecidableEq

/-- The guard of background.js line 39. A missing cards variable is
falsy; when cards exists but lastUpdated does not, the subtraction is
NaN and the comparison is false, as in the source. -/
def isStale (st : PollerState) (now : Int) : Bool :=
  st.cards.isNone
    || (match st.lastUpdated with
        | some lu => decide (now - lu > UPDATE_INTERVAL)
        | none => false)

/-- The result of one completed update call: the state afterwards, the
addCards calls issued into the bridge, and whether a fetch was
issued. -/
structure UpdateResult where
  state : PollerState
  calls : List (List Card × Bool)
  fetched : Bool
deriving DecidableEq

/-- One invocation of update (background.js lines 38-46), given the
clock reading at the staleness check, the clock reading after the
fetch resolves, and the fetch outcome. Returns none when the call
never completes because the awaited fetch never settles. -/
def update (st : PollerState) (now fetchTime : Int)
    (fetch : Option (List Card)) : Option UpdateResult :=
  if isStale st now then
    match fetch with
    | none => none
    | some cs =>
        some (UpdateResult.mk
          (PollerState.mk (some cs) (some fetchTime) st.tickListeners)
          [(cs, true)] true)
  else
    match st.cards with
    | some cs => some (UpdateResult.mk st [(cs, true)] false)
    | none => some (UpdateResult.mk st [] false)

/-- The observable effect of one update call: when the call never
completes, the cache is left as it was and no addCards call has been
issued. -/
def runUpdate (st : PollerState) (now fetchTime : Int)
    (o : FetchOutcome) : PollerState × List (List Card × Bool) :=
  match update st now fetchTime (fetchCards o) with
  | none => (st, [])
  | some r => (r.state, r.calls)

/-- WebExtension event subscription, as the EventManager api object of
ExtensionCommon exposes it to the extension: addListener of an
already-registered callback is ignored, so a callback is registered at
most once. -/
def addListener (ls : List TickHandler) (h : TickHandler) : List TickHandler :=
  if h ∈ ls then ls else ls ++ [h]

/-- WebExtension removeListener: deregisters the callback. -/
def removeListener (ls : List TickHandler) (h : TickHandler) : List TickHandler :=
  ls.filter (fun x => x ≠ h)

/-- One invocation of init (background.js lines 48-51): await one full
update, then subscribe the update handler to the tick stream. When the
awaited update never completes, init never resumes and the
subscription is never added: the call is modelled as returning none. -/
def init (st : PollerState) (now fetchTime : Int)
    (fetch : Option (List Card)) :
    Option (PollerState × List (List Card × Bool)) :=
  match update st now fetchTime fetch with
  | none => none
  | some r =>
      some (PollerState.mk r.state.cards r.state.lastUpdated
              (addListener r.state.tickListeners TickHandler.update),
            r.calls)

/-- The lifecycle events the bridge delivers to the poller. -/
inductive LifecycleEvent where
  | initialized : LifecycleEvent
  | uninitialized : LifecycleEvent
deriving DecidableEq

/-- The effect of one delivered lifecycle event on the tick-stream
subscriptions: init eventually adds the update handler (background.js
line 50), uninit removes it (line 54). -/
def lifecycleListeners (ls : List TickHandler) :
    LifecycleEvent → List TickHandler
  | LifecycleEvent.initialized => addListener ls TickHandler.update
  | LifecycleEvent.uninitialized => removeListener ls TickHandler.update

/-- The tick-stream subscriptions after a sequence of lifecycle events
delivered to a fresh poller. -/
def runLifecycle (evs : List LifecycleEvent) : List TickHandler :=
  evs.foldl lifecycleListeners []

/-- A concrete card used to instantiate the poller theorems. -/
def cardW : Card := Card.mk "t" "u" "d" "" "nytimes"

/-- A concrete poller state with a cache refreshed at time 0. -/
def stW : PollerState := PollerState.mk (some [cardW]) (some 0) []

/-- A concrete fresh poller state with no cache. -/
def stN : PollerState := PollerState.mk none none []

/-- Claim C3: when the remote refresh fails, the fetch promise never
settles and the update call never resumes, so the cached card list and
timestamp keep their previous contents and, in the refresh branch, no
addCards call reaches the bridge: a failed refresh never overwrites
previously fetched cards. -/
theorem c3_failed_refresh_preserves_cache (st : PollerState)
    (now fetchTime : Int) (o : FetchOutcome)
    (hfail : fetchCards o = none) :
    (runUpdate st now fetchTime o).1.cards = st.cards ∧
    (runUpdate st now fetchTime o).1.lastUpdated = st.lastUpdated ∧
    (isStale st now = true → runUpdate st now fetchTime o = (st, [])) := by
  by_cases h : isStale st now
  · simp [runUpdate, update, hfail, h]
  · have hf : isStale st now = false := by simpa using h
    cases hc : st.cards with
    | some cs => simp [runUpdate, update, hfail, hf, hc]
    | none =>
      exfalso
      simp [isStale, hc] at hf

/-- Witness for claim C3: a network error on a tick with a stale cache
leaves the cache of stW intact and issues no bridge call. -/
theorem c3_failed_refresh_preserves_cache_witness :
    (runUpdate stW 1000000 1000001 FetchOutcome.networkError).1.cards
      = stW.cards
    ∧ runUpdate stW 1000000 1000001 FetchOutcome.networkError = (stW, []) :=
  ⟨(c3_failed_refresh_preserves_cache stW 1000000 1000001
      FetchOutcome.networkError rfl).1,
   (c3_failed_refresh_preserves_cache stW 1000000 1000001
      FetchOutcome.networkError rfl).2.2 (by decide)⟩

/-- Claim C4: on a tick, when no cached list exists or the cache age
strictly exceeds 900000 milliseconds, update fetches, replaces the
cache and its timestamp and publishes the fetched list to the bridge
with broadcast enabled; otherwise, with a cached list present, no
fetch is issued and the unchanged cached list is republished with
broadcast enabled, whatever the fetch would have delivered. -/
theorem c4_tick_refresh_or_republish (st : PollerState)
    (now fetchTime : Int) (cs : List Card) :
    UPDATE_INTERVAL = 900000 ∧
    (st.cards = none →
      update st now fetchTime (some cs)
        = some (UpdateResult.mk
            (PollerState.mk (some cs) (some fetchTime) st.tickListeners)
            [(cs, true)] true)) ∧
    (∀ lu, st.lastUpdated = some lu → now - lu > 900000 →
      update st now fetchTime (some cs)
        = some (UpdateResult.mk
            (PollerState.mk (some cs) (some fetchTime) st.tickListeners)
            [(cs, true)] true)) ∧
    (∀ l lu, st.cards = some l → st.lastUpdated = some lu →
      ¬ now - lu > 900000 →
      ∀ f : Option (List Card),
        update st now fetchTime f
          = some (UpdateResult.mk st [(l, true)] false)) := by
  refine ⟨by norm_num [UPDATE_INTERVAL], ?_, ?_, ?_⟩
  · intro hc
    have h : isStale st now = true := by simp [isStale, hc]
    simp [update, h]
  · intro lu hlu hgt
    have h : isStale st now = true := by
      unfold isStale UPDATE_INTERVAL
      rw [hlu]
      simp only [Bool.or_eq_true, decide_eq_true_eq]
      right
      omega
    simp [update, h]
  · intro l lu hl hlu hle f
    have h : isStale st now = false := by
      unfold isStale UPDATE_INTERVAL
      rw [hl, hlu]
      simp only [Option.isNone_some, Bool.false_or, decide_eq_false_iff_not]
      omega
    simp [update, h, hl]

/-- Witness for claim C4: the empty-cache branch, the stale-cache
branch sixteen minutes after the last refresh, and the fresh-cache
branch one second after it. -/
theorem c4_tick_refresh_or_republish_witness :
    update stN 0 5 (some [cardW])
      = some (UpdateResult.mk (PollerState.mk (some [cardW]) (some 5) [])
          [([cardW], true)] true)
    ∧ update stW 960000 960005 (some [])
        = some (UpdateResult.mk (PollerState.mk (some []) (some 960005) [])
            [([], true)] true)
    ∧ update stW 1000 1005 none
        = some (UpdateResult.mk stW [([cardW], true)] false) :=
  ⟨(c4_tick_refresh_or_republish stN 0 5 [cardW]).2.1 rfl,
   (c4_tick_refresh_or_republish stW 960000 960005 []).2.2.1 0 rfl (by decide),
   (c4_tick_refresh_or_republish stW 1000 1005 []).2.2.2 [cardW] 0 rfl rfl
     (by decide) none⟩

/-- Claim C10: one init call is exactly one complete update call
followed by subscribing the update handler to the tick stream; when
the awaited update never completes, the subscription is never added. -/
theorem c10_init_awaits_update_before_subscribing (st : PollerState)
    (now fetchTime : Int) (fetch : Option (List Card)) :
    (update st now fetchTime fetch = none →
      init st now fetchTime fetch = none) ∧
    (∀ r : UpdateResult, update st now fetchTime fetch = some r →
      init st now fetchTime fetch
        = some (PollerState.mk r.state.cards r.state.lastUpdated
            (addListener r.state.tickListeners TickHandler.update),
          r.calls)) := by
  constructor
  · intro h
    simp [init, h]
  · intro r h
    simp [init, h]

/-- Witness for claim C10: with an empty cache and a hanging fetch,
init never subscribes; with a fresh cache, init completes the update
and then the update handler is subscribed. -/
theorem c10_init_awaits_update_before_subscribing_witness :
    init stN 0 5 none = none
    ∧ init stW 1000 1005 none
        = some (PollerState.mk (some [cardW]) (some 0) [TickHandler.update],
            [([cardW], true)]) :=
  ⟨(c10_init_awaits_update_before_subscribing stN 0 5 none).1 rfl,
   (c10_init_awaits_update_before_subscribing stW 1000 1005 none).2
     (UpdateResult.mk stW [([cardW], true)] false) rfl⟩

/-- Claim C8: whatever sequence of initialized and uninitialized
events the bridge delivers, at most one subscription of the update
handler to the tick stream is live, because addListener of an
already-registered callback is ignored; after the sequence init,
uninit, init the tick listener list is exactly the update handler. -/
theorem c8_at_most_one_tick_subscription :
    (∀ evs : List LifecycleEvent, (runLifecycle evs).length ≤ 1) ∧
    runLifecycle [LifecycleEvent.initialized, LifecycleEvent.uninitialized,
      LifecycleEvent.initialized] = [TickHandler.update] := by
  constructor
  · intro evs
    have key : ∀ (evs2 : List LifecycleEvent) (ls : List TickHandler),
        ls = [] ∨ ls = [TickHandler.update] →
        evs2.foldl lifecycleListeners ls = [] ∨
        evs2.foldl lifecycleListeners ls = [TickHandler.update] := by
      intro evs2
      induction evs2 with
      | nil =>
        intro ls h
        simpa using h
      | cons e evs3 ih =>
        intro ls h
        rw [List.foldl_cons]
        apply ih
        cases e with
        | initialized =>
          rcases h with h | h <;> subst h
          · exact Or.inr (by simp [lifecycleListeners, addListener])
          · exact Or.inr (by simp [lifecycleListeners, addListener])
        | uninitialized =>
          rcases h with h | h <;> subst h
          · exact Or.inl (by simp [lifecycleListeners, removeListener])
          · exact Or.inl (by simp [lifecycleListeners, removeListener])
    rcases key evs [] (Or.inl rfl) with h | h <;> simp [runLifecycle, h]
  · rfl

/-! ## Specification-side description of the image choice

The spec words the choice as: among the media items of type image with
width at most 300, the first one of maximal width wins, and the chosen
url is empty when no such item has positive width. The following
definitions state that description directly; the theorem below proves
the forEach loop of the source computes it.
-/

/-- A media item eligible for selection: an image no wider than 300. -/
def qualifies (m : Media) : Bool :=
  m.type == "image" && decide (m.width ≤ 300)

/-- The maximal width among eligible media items, 0 when none. -/
def maxQualWidth : List Media → Nat
  | [] => 0
  | m :: ms =>
      if qualifies m then max m.width (maxQualWidth ms) else maxQualWidth ms

/-- The first eligible media item of exactly the given width. -/
def firstQualAt : List Media → Nat → Option Media
  | [], _ => none
  | m :: ms, w =>
      if qualifies m && m.width == w then some m else firstQualAt ms w

/-- The image url the spec describes: that of the first eligible item
of maximal width, empty when no eligible item has positive width. -/
def specImage (ms : List Media) : String :=
  if maxQualWidth ms = 0 then ""
  else
    match firstQualAt ms (maxQualWidth ms) with
    | some m => m.url
    | none => ""

theorem bestImage_cond_eq (m : Media) (acc : BestImage) :
    (m.type == "image" && decide (acc.width < m.width)
        && decide (m.width ≤ 300))
      = (qualifies m && decide (acc.width < m.width)) := by
  unfold qualifies
  cases hb : m.type == "image" <;> cases h1 : decide (acc.width < m.width)
    <;> cases h2 : decide (m.width ≤ 300) <;> simp [hb, h1, h2]

theorem bestImage_spec : ∀ (ms : List Media) (acc : BestImage),
    (maxQualWidth ms ≤ acc.width → bestImage ms acc = acc) ∧
    (acc.width < maxQualWidth ms →
      ∃ m, firstQualAt ms (maxQualWidth ms) = some m ∧
        m.width = maxQualWidth ms ∧
        bestImage ms acc = BestImage.mk m.width m.url) := by
  intro ms
  induction ms with
  | nil =>
    intro acc
    refine ⟨fun _ => rfl, fun h => absurd h (by simp [maxQualWidth])⟩
  | cons m ms ih =>
    intro acc
    by_cases hq : qualifies m = true
    · have hmax : maxQualWidth (m :: ms) = max m.width (maxQualWidth ms) := by
        simp [maxQualWidth, hq]
      have hq3 : m.type = "image" ∧ m.width ≤ 300 := by
        have hcopy := hq
        unfold qualifies at hcopy
        simpa only [Bool.and_eq_true, beq_iff_eq, decide_eq_true_eq]
          using hcopy
      by_cases hlt : acc.width < m.width
      · have hstep : bestImage (m :: ms) acc
            = bestImage ms (BestImage.mk m.width m.url) := by
          simp [bestImage, hq3.1, hq3.2, hlt]
        constructor
        · intro hle
          rw [hmax] at hle
          exact absurd (Nat.le_trans (Nat.le_max_left _ _) hle)
            (Nat.not_le.mpr hlt)
        · intro _
          rcases le_or_lt (maxQualWidth ms) m.width with hWm | hWm
          · have hM : maxQualWidth (m :: ms) = m.width := by
              rw [hmax]
              exact Nat.max_eq_left hWm
            refine ⟨m, ?_, ?_, ?_⟩
            · rw [hM]
              simp [firstQualAt, hq]
            · rw [hM]
            · rw [hstep]
              exact (ih (BestImage.mk m.width m.url)).1 hWm
          · have hM : maxQualWidth (m :: ms) = maxQualWidth ms := by
              rw [hmax]
              exact Nat.max_eq_right (Nat.le_of_lt hWm)
            obtain ⟨m2, hfind, hwidth, hbest⟩ :=
              (ih (BestImage.mk m.width m.url)).2 hWm
            refine ⟨m2, ?_, ?_, ?_⟩
            · rw [hM]
              have hne : (m.width == maxQualWidth ms) = false := by
                simp
                omega
              simp [firstQualAt, hne, hfind]
            · rw [hM]
              exact hwidth
            · rw [hstep]
              exact hbest
      · have hstep : bestImage (m :: ms) acc = bestImage ms acc := by
          simp [bestImage, bestImage_cond_eq, hlt]
        have hmw : m.width ≤ acc.width := Nat.le_of_not_lt hlt
        constructor
        · intro hle
          rw [hmax] at hle
          rw [hstep]
          exact (ih acc).1 (Nat.le_trans (Nat.le_max_right _ _) hle)
        · intro hgt
          rw [hmax] at hgt
          have hW : acc.width < maxQualWidth ms := by
            rcases lt_max_iff.mp hgt with h | h
            · omega
            · exact h
          have hM : maxQualWidth (m :: ms) = maxQualWidth ms := by
            rw [hmax]
            exact Nat.max_eq_right (by omega)
          obtain ⟨m2, hfind, hwidth, hbest⟩ := (ih acc).2 hW
          refine ⟨m2, ?_, ?_, ?_⟩
          · rw [hM]
            have hne : (m.width == maxQualWidth ms) = false := by
              simp
              omega
            simp [firstQualAt, hne, hfind]
          · rw [hM]
            exact hwidth
          · rw [hstep]
            exact hbest
    · have hq2 : qualifies m = false := by simpa using hq
      have hmax : maxQualWidth (m :: ms) = maxQualWidth ms := by
        simp [maxQualWidth, hq2]
      have hstep : bestImage (m :: ms) acc = bestImage ms acc := by
        simp [bestImage, bestImage_cond_eq, hq2]
      constructor
      · intro hle
        rw [hmax] at hle
        rw [hstep]
        exact (ih acc).1 hle
      · intro hgt
        rw [hmax] at hgt
        obtain ⟨m2, hfind, hwidth, hbest⟩ := (ih acc).2 hgt
        refine ⟨m2, ?_, ?_, ?_⟩
        · rw [hmax]
          simp [firstQualAt, hq2, hfind]
        · rw [hmax]
          exact hwidth
        · rw [hstep]
          exact hbest

theorem chosenImage_eq_specImage (ms : List Media) :
    chosenImage ms = specImage ms := by
  unfold chosenImage specImage
  by_cases h : maxQualWidth ms = 0
  · rw [if_pos h, (bestImage_spec ms (BestImage.mk 0 "")).1 (by simp [h])]
  · rw [if_neg h]
    obtain ⟨m, hfind, hwidth, hbest⟩ :=
      (bestImage_spec ms (BestImage.mk 0 "")).2
        (by simpa using Nat.pos_of_ne_zero h)
    rw [hbest, hfind]

/-- Claim C5: for every parsed results array, the fetched card list is
the first 20 entries mapped to cards labelled nytimes, with the
description taken from the abstract and the image being the url of the
first strictly-widest eligible image of width at most 300, empty when
none qualifies; in particular for multimedia widths 150, 320 and 280
the width-280 image is chosen. -/
theorem c5_getCards_takes20_and_picks_widest :
    (∀ results : List Story,
      getCards results = (results.take 20).map (fun s =>
        Card.mk s.title s.url s.abstract (specImage s.multimedia) "nytimes")) ∧
    chosenImage [Media.mk "image" 150 "u150", Media.mk "image" 320 "u320",
      Media.mk "image" 280 "u280"] = "u280" := by
  constructor
  · intro results
    unfold getCards
    apply List.map_congr_left
    intro s _
    unfold toCard
    rw [chosenImage_eq_specImage]
  · rfl
